import Mathlib

/-!
# Verification of the DICOMetaExtractor resumable extraction pipeline

Shallow embedding of `src/DICOMetaExtractor_v32.py` (the richest pipeline
version, which the specification describes): the stringifier, the per-file
and per-folder processors, the merge-stage table normalization, the
checkpoint store, and the trace-level behaviour of
`process_folder_and_save_results` and the end of `main`.

External library behaviour (Python `json`, `str`, `set`, file locking,
the process pools) is modelled at the granularity the source code observes:
`json.dumps` may fail on non-serializable values, `set(x)` may raise
`TypeError` on non-iterable values, pool completion order is an arbitrary
permutation of submissions, and lock/file operations are atomic steps.
-/

set_option autoImplicit false

namespace DicomExtract

/-! ## Python values (decoded DICOM element values)

`PyValue` models the values `stringify_value` can receive: `None`, bytes,
strings, numbers, booleans, and composite list/set/dict values.
-/

inductive PyValue where
  | vnone
  | vbytes (bs : List Nat)
  | vstr (s : String)
  | vint (n : Int)
  | vbool (b : Bool)
  | vlist (elems : List PyValue)
  | vset (elems : List PyValue)
  | vdict (entries : List (String × PyValue))

/-- Lowercase hexadecimal digit, as produced by Python `bytes.hex()`. -/
def hexDigit (n : Nat) : Char :=
  if n < 10 then Char.ofNat (48 + n) else Char.ofNat (87 + n)

/-- One byte as two lowercase hex digits (`bytes.hex()` per byte). -/
def byteHex (b : Nat) : String :=
  String.mk [hexDigit (b / 16 % 16), hexDigit (b % 16)]

/-- Python `bytes.hex()`: concatenation of two hex digits per byte. -/
def bytesHex (bs : List Nat) : String :=
  String.join (bs.map byteHex)

/-- Minimal JSON string escaping (backslash and double quote), standing in
for the `json` library's escaper on the characters the model distinguishes. -/
def jsonEscapeChar (c : Char) : String :=
  if c = '\\' then "\\\\"
  else if c = '\"' then "\\\""
  else String.mk [c]

def jsonEscape (s : String) : String :=
  String.join (s.toList.map jsonEscapeChar)

-- Python `json.dumps` with default options, modelled on `PyValue`:
-- serializable values yield their JSON text, while `set` and `bytes` values
-- (anywhere in the structure) raise `TypeError`, which the model returns as
-- `Except.error` carrying the exception's message.
mutual

/-- Model of Python `json.dumps` on a single value. -/
def jsonDumps : PyValue → Except String String
  | .vnone => .ok "null"
  | .vbool b => .ok (if b then "true" else "false")
  | .vint n => .ok (toString n)
  | .vstr s => .ok ("\"" ++ jsonEscape s ++ "\"")
  | .vbytes _ => .error "Object of type bytes is not JSON serializable"
  | .vset _ => .error "Object of type set is not JSON serializable"
  | .vlist elems => do
      let parts ← jsonDumpsList elems
      .ok ("[" ++ String.intercalate ", " parts ++ "]")
  | .vdict entries => do
      let parts ← jsonDumpsEntries entries
      .ok ("\x7b" ++ String.intercalate ", " parts ++ "\x7d")

def jsonDumpsList : List PyValue → Except String (List String)
  | [] => .ok []
  | v :: vs => do
      let s ← jsonDumps v
      let ss ← jsonDumpsList vs
      .ok (s :: ss)

def jsonDumpsEntries : List (String × PyValue) → Except String (List String)
  | [] => .ok []
  | (k, v) :: kvs => do
      let s ← jsonDumps v
      let ss ← jsonDumpsEntries kvs
      .ok (("\"" ++ jsonEscape k ++ "\": " ++ s) :: ss)

end

/-- Python `str()` on the scalar values `stringify_value` ever passes to it
(composites are routed to `json.dumps` and bytes/None are handled earlier,
so those branches of `str` are unreachable from `stringify_value`). -/
def pyStr : PyValue → String
  | .vnone => "None"
  | .vstr s => s
  | .vint n => toString n
  | .vbool b => if b then "True" else "False"
  | .vbytes bs => bytesHex bs
  | .vlist _ => "[...]"
  | .vset _ => "\x7b...\x7d"
  | .vdict _ => "\x7b...\x7d"

/-- Embedding of `stringify_value` (v32 lines 51-64): `None` maps to
`"N/A"`; bytes map to their hex text; list/set/dict values are passed to
`json.dumps`, with a raised serialization error caught and rendered as
`"Error: <message>"`; everything else maps to its `str()` form. -/
def stringify_value : PyValue → String
  | .vnone => "N/A"
  | .vbytes bs => bytesHex bs
  | .vlist elems =>
      match jsonDumps (.vlist elems) with
      | .ok s => s
      | .error e => "Error: " ++ e
  | .vset elems =>
      match jsonDumps (.vset elems) with
      | .ok s => s
      | .error e => "Error: " ++ e
  | .vdict entries =>
      match jsonDumps (.vdict entries) with
      | .ok s => s
      | .error e => "Error: " ++ e
  | .vstr s => pyStr (.vstr s)
  | .vint n => pyStr (.vint n)
  | .vbool b => pyStr (.vbool b)

/-- A value is composite when Python's
`isinstance(value, (list, dict, set))` holds. -/
def isComposite : PyValue → Bool
  | .vlist _ => true
  | .vset _ => true
  | .vdict _ => true
  | _ => false

/-! ## Records and the per-file / per-folder processors -/

/-- A Python dict with string keys and string values, in insertion order:
one file's stringified record. -/
abbrev Record := List (String × String)

/-- Python dict assignment `d[k] = v`: overwrite in place when the key is
present, append at the end otherwise. -/
def dictAssign (d : Record) (k v : String) : Record :=
  if d.any (fun p => p.1 = k) then
    d.map (fun p => if p.1 = k then (k, v) else p)
  else d ++ [(k, v)]

/-- Python dict lookup, `None` when the key is absent. -/
def dictGet (d : Record) (k : String) : Option String :=
  (d.find? (fun p => p.1 = k)).map Prod.snd

/-- Outcome of `dicom_tag_to_dict` on one file: the flat tag dict, or the
exception the decode raised (parametrising over the external pydicom
decoder). -/
inductive DecodeResult where
  | ok (tags : List (String × PyValue))
  | raised (msg : String)

/-- Embedding of `process_file` (v32 lines 67-76): on a successful decode,
stringify every tag value in place and then assign `"DicomPath" := filepath`;
on any raised exception, catch it and return the one-entry record holding
only the source path. -/
def process_file (decode : String → DecodeResult) (filepath : String) : Record :=
  match decode filepath with
  | .ok tags =>
      dictAssign (tags.map (fun p => (p.1, stringify_value p.2))) "DicomPath" filepath
  | .raised _ => [("DicomPath", filepath)]

/-- Embedding of `process_files_chunk` (v32 lines 97-98). -/
def process_files_chunk (decode : String → DecodeResult) (filepaths : List String) :
    List Record :=
  filepaths.map (process_file decode)

/-- Python `s.endswith(t)`, as a suffix test on the character lists. -/
def pyEndsWith (s t : String) : Bool :=
  t.toList.isSuffixOf s.toList

/-- The folder's work list (v32 lines 79-81): names ending in `.dcm`,
joined to the folder path. -/
def dcmFilepaths (folder : String) (listing : List String) : List String :=
  (listing.filter (fun f => pyEndsWith f ".dcm")).map (fun f => folder ++ "/" ++ f)

/-- Chunking with the fixed chunk size 6 of `process_folder`
(v32 lines 82-85): successive slices `filepaths[i : i + 6]`. -/
def chunksOf6 {α : Type} : List α → List (List α)
  | [] => []
  | x :: xs => ((x :: xs).take 6) :: chunksOf6 ((x :: xs).drop 6)
termination_by xs => xs.length
decreasing_by simp [List.length_drop]; omega

/-- Embedding of `process_folder` (v32 lines 78-94): the chunks are
submitted to a `ProcessPoolExecutor` and collected with `as_completed`, so
the results arrive in a nondeterministic completion order; the embedding
takes that order as an explicit parameter (any permutation of the submitted
chunk list) and concatenates the per-chunk results in that order. -/
def process_folder (decode : String → DecodeResult)
    (completionOrder : List (List String)) : List Record :=
  (completionOrder.map (process_files_chunk decode)).flatten

/-- Whether the decode of a file raises (the situation `process_file`
catches). -/
def decodeRaises (decode : String → DecodeResult) (filepath : String) : Bool :=
  match decode filepath with
  | .ok _ => false
  | .raised _ => true

/-- A record of the degraded shape: a single entry, holding only the
source path under `"DicomPath"`. -/
def isDegraded (r : Record) : Bool :=
  match r with
  | [(k, _)] => k = "DicomPath"
  | _ => false

/-! ## Merge stage: table construction and normalization

`merge_partial_results_and_cleanup` (v32 lines 121-148) concatenates the
record lists of all partial files, builds a dataframe (`pd.DataFrame` on a
list of dicts: columns are the union of keys in first-appearance order,
absent keys become missing cells), applies `replace_with_none` to every
cell, and drops each column whose null count equals the table height.
A cell is `Option String`: `none` is the canonical missing value.
-/

/-- Embedding of `replace_with_none` (v32 lines 115-119): Python
`value in ["", "N/A", "None", "NONE", None]`. The dataframe cell is an
`Option String` (`none` for a null cell); polars `map_elements` passes
nulls through unchanged, which coincides with the branch mapping `None`
to `None`. -/
def replace_with_none (value : Option String) : Option String :=
  if value = some "" ∨ value = some "N/A" ∨ value = some "None" ∨
      value = some "NONE" ∨ value = none then
    none
  else
    value

/-- Append a column name if it has not been seen yet (pandas union of dict
keys, first-appearance order). -/
def addCol (acc : List String) (c : String) : List String :=
  if c ∈ acc then acc else acc ++ [c]

/-- The dataframe's column set for a list of row dicts: union of all keys
across records, in first-appearance order. -/
def columnsOf (rows : List Record) : List String :=
  ((rows.map (fun r => r.map Prod.fst)).flatten).foldl addCol []

/-- The dataframe cell at row `r`, column `c`: the dict's value, or a
missing cell when the record lacks the field. -/
def getCell (r : Record) (c : String) : Option String :=
  dictGet r c

/-- The cell after the merge stage's per-cell normalization pass
(v32 line 143: `pl.all().map_elements(replace_with_none)`). -/
def normCell (r : Record) (c : String) : Option String :=
  replace_with_none (getCell r c)

/-- The null count of column `c` after normalization (polars
`s.null_count()`). -/
def nullCount (rows : List Record) (c : String) : Nat :=
  rows.countP (fun r => normCell r c = none)

/-- The merge stage's surviving column set (v32 lines 144-146): keep a
column unless its null count equals the table height. -/
def keptColumns (rows : List Record) : List String :=
  (columnsOf rows).filter (fun c => ¬ nullCount rows c = rows.length)

/-! ## Filesystem-level run model

For the claims about run-level effects (empty input, cleanup) the state the
code manipulates is: the partial files in `temp_processing/`, the temp
directory itself, the checkpoint file `processed_folders.json`, and the
output CSV. Each partial file holds one folder's record list.
-/

/-- A Python exception surfaced by the filesystem model. -/
inductive PyErr where
  | fileNotFound
  | typeErr (msg : String)
deriving DecidableEq, Repr

structure FS where
  /-- Record lists of the `.json` partial files in the temp directory. -/
  partialFiles : List (List Record)
  tempDirExists : Bool
  /-- Whether `processed_folders.json` exists in the output's base dir. -/
  checkpointFileExists : Bool
  /-- The written CSV, as surviving columns plus rows, once written. -/
  output : Option (List String × List Record)
deriving Repr

/-- Embedding of `merge_partial_results_and_cleanup` (v32 lines 121-148)
at filesystem granularity: with no partial files, print a notice, delete
the temp directory and return without writing output; otherwise build and
normalize the table, write the CSV, and delete the temp directory. -/
def merge_partial_results_and_cleanup (fs : FS) : FS :=
  if fs.partialFiles.isEmpty then
    { fs with tempDirExists := false }
  else
    let rows := fs.partialFiles.flatten
    { fs with
      output := some (keptColumns rows, rows)
      tempDirExists := false }

/-- Python `os.remove` on the checkpoint file: raises `FileNotFoundError`
when the file does not exist (v32 line 251). -/
def osRemoveCheckpoint (fs : FS) : Except PyErr FS :=
  if fs.checkpointFileExists then
    .ok { fs with checkpointFileExists := false }
  else
    .error .fileNotFound

/-- The tail of `main` after folder processing (v32 lines 248-252): run the
merge stage, then unconditionally remove the checkpoint file. -/
def mainFinish (fs : FS) : Except PyErr FS :=
  osRemoveCheckpoint (merge_partial_results_and_cleanup fs)

/-- The filesystem state reached by a run over an input tree with no
decodable files, at the moment the merge stage is invoked: the temp
directory was created (v32 line 207, `create_temp_dir`), no folder was ever
processed, so no partial file was written and `mark_folder_as_processed`
never created the checkpoint file. -/
def emptyRunFS : FS :=
  { partialFiles := []
    tempDirExists := true
    checkpointFileExists := false
    output := none }

/-! ## Checkpoint store: `load_processed_folders`

The checkpoint file holds JSON text. `json.load` either raises
`JSONDecodeError` (empty or malformed text) or returns a parsed JSON value;
`set(data)` then either iterates the value or raises `TypeError` when the
value is not iterable. The embedding keeps exactly these observation
points.
-/

/-- Parsed JSON values, as returned by Python `json.load`. -/
inductive PyJson where
  | jnull
  | jbool (b : Bool)
  | jnum (n : Int)
  | jstr (s : String)
  | jlist (elems : List PyJson)
  | jobj (entries : List (String × PyJson))

/-- Hashability in Python terms: list and dict elements are unhashable and
make `set(...)` raise. -/
def isHashable : PyJson → Bool
  | .jlist _ => false
  | .jobj _ => false
  | _ => true

/-- Equality test on the hashable (scalar) JSON values, used by the set
model for deduplication. -/
def jsonScalarEq : PyJson → PyJson → Bool
  | .jnull, .jnull => true
  | .jbool a, .jbool b => a = b
  | .jnum a, .jnum b => a = b
  | .jstr a, .jstr b => a = b
  | _, _ => false

/-- Deduplication keeping the first occurrence, under an equality test. -/
def dedupByFirst (eq : PyJson → PyJson → Bool) : List PyJson → List PyJson
  | [] => []
  | x :: xs => x :: (dedupByFirst eq xs).filter (fun y => ¬ eq x y)

/-- Python `set(data)` on a parsed JSON value: a list of hashable elements,
a string (iterated as its characters), or a dict (iterated as its keys)
yields a set; every other JSON value is not iterable and raises
`TypeError`; a list with an unhashable element raises `TypeError` too. -/
def pySet : PyJson → Except PyErr (List PyJson)
  | .jlist elems =>
      if elems.all isHashable then
        .ok (dedupByFirst jsonScalarEq elems)
      else
        .error (.typeErr "unhashable type")
  | .jstr s =>
      .ok (dedupByFirst jsonScalarEq (s.toList.map (fun c => .jstr (String.mk [c]))))
  | .jobj entries =>
      .ok (dedupByFirst jsonScalarEq (entries.map (fun p => PyJson.jstr p.1)))
  | .jnull => .error (.typeErr "NoneType object is not iterable")
  | .jbool _ => .error (.typeErr "bool object is not iterable")
  | .jnum _ => .error (.typeErr "int object is not iterable")

/-- The checkpoint file as `load_processed_folders` observes it: absent
(`open` raises `FileNotFoundError`), present but not JSON-parsable
(`json.load` raises `JSONDecodeError`), or parsed to a JSON value. -/
inductive CheckpointFile where
  | missing
  | unparsable
  | parsed (v : PyJson)

/-- Embedding of `load_processed_folders` (v32 lines 151-161): a missing
file and a `JSONDecodeError` are caught and yield the empty set; any other
raised exception (notably `TypeError` from `set(data)`) propagates, which
the embedding returns as `Except.error`. -/
def load_processed_folders : CheckpointFile → Except PyErr (List PyJson)
  | .missing => .ok []
  | .unparsable => .ok []
  | .parsed v => pySet v

/-! ## `mark_folder_as_processed` as an interleaved step machine

`mark_folder_as_processed` (v32 lines 164-171) executes, in order:
(0) `load_processed_folders` — a read under a shared lock on the file
handle it opens for reading, plus `set.add(folder)`;
(1) `open(path, "w")` — which truncates the checkpoint file before any
lock is taken on the new handle;
(2) `portalocker.lock(file, LOCK_EX)`;
(3) `json.dump(list(processed), file)`;
(4) `portalocker.unlock(file)`.
Each numbered line is one atomic step of a worker process; a schedule is a
list of worker pids, executed in order. A step that must block (exclusive
lock held elsewhere) leaves the configuration unchanged.
-/

/-- The string identifiers stored in a checkpoint file's JSON list. The
file written by this program always holds a JSON list of strings. -/
def fileIdents : CheckpointFile → List String
  | .parsed (.jlist elems) =>
      elems.filterMap (fun e => match e with | .jstr s => some s | _ => none)
  | _ => []

/-- Python `set.add`: no change when the element is present. -/
def setAdd (s : List String) (x : String) : List String :=
  if x ∈ s then s else s ++ [x]

/-- One worker executing `mark_folder_as_processed folder`:
its program counter and the local `processed` set. -/
structure MarkWorker where
  pid : Nat
  folder : String
  localSet : List String
  pc : Nat
deriving Repr

/-- Shared configuration: the checkpoint file, the holder of the exclusive
lock, and the workers. -/
structure MarkCfg where
  file : CheckpointFile
  exLock : Option Nat
  workers : List MarkWorker

/-- Execute one step of worker `w` against file `file` and lock `ex`;
returns the new file, lock, and worker. A blocked or finished worker
leaves everything unchanged. -/
def markStep (file : CheckpointFile) (ex : Option Nat) (w : MarkWorker) :
    CheckpointFile × Option Nat × MarkWorker :=
  if w.pc = 0 then
    -- load_processed_folders under a shared lock (blocks while the
    -- exclusive lock is held elsewhere), then processed.add(folder)
    if ex = none ∨ ex = some w.pid then
      match load_processed_folders file with
      | .ok js =>
          let idents := js.filterMap (fun e => match e with | .jstr s => some s | _ => none)
          (file, ex, { w with localSet := setAdd idents w.folder, pc := 1 })
      | .error _ => (file, ex, { w with pc := 99 })  -- uncaught exception
    else (file, ex, w)
  else if w.pc = 1 then
    -- open(path, "w"): truncates the file to empty text, which no longer
    -- parses as JSON; no lock is required for this
    (.unparsable, ex, { w with pc := 2 })
  else if w.pc = 2 then
    -- portalocker.lock(file, LOCK_EX): blocks while held elsewhere
    if ex = none then (file, some w.pid, { w with pc := 3 })
    else if ex = some w.pid then (file, ex, { w with pc := 3 })
    else (file, ex, w)
  else if w.pc = 3 then
    -- json.dump(list(processed), file)
    (.parsed (.jlist (w.localSet.map .jstr)), ex, { w with pc := 4 })
  else if w.pc = 4 then
    -- portalocker.unlock(file)
    (file, if ex = some w.pid then none else ex, { w with pc := 5 })
  else
    (file, ex, w)

/-- Execute one scheduled step: the worker with pid `p` takes its next
step. -/
def execStep (cfg : MarkCfg) (p : Nat) : MarkCfg :=
  match cfg.workers.find? (fun w => w.pid = p) with
  | none => cfg
  | some w =>
      match markStep cfg.file cfg.exLock w with
      | (f, ex, w') =>
          { file := f
            exLock := ex
            workers := cfg.workers.map (fun w2 => if w2.pid = p then w' else w2) }

/-- Run a schedule (a list of pids) from a configuration. -/
def runSchedule (cfg : MarkCfg) (sched : List Nat) : MarkCfg :=
  sched.foldl execStep cfg

/-- Fresh worker about to run `mark_folder_as_processed folder`. -/
def mkWorker (pid : Nat) (folder : String) : MarkWorker :=
  { pid := pid, folder := folder, localSet := [], pc := 0 }

/-- Two workers marking folders `a` and `b` against an initially missing
checkpoint file (the first run of the pipeline). -/
def twoMarkCfg (a b : String) : MarkCfg :=
  { file := .missing
    exLock := none
    workers := [mkWorker 1 a, mkWorker 2 b] }

/-- The interleaved schedule: both workers load (steps under the shared
lock), then each performs truncate-lock-write-unlock in turn. Every lock
acquisition in this schedule succeeds immediately: the exclusive lock is
never contended, because each worker's load already happened. -/
def racySched : List Nat := [1, 2, 1, 1, 1, 1, 2, 2, 2, 2]

/-- Fully serialized schedule: worker 1 runs its five steps to completion
before worker 2 starts. -/
def serialSched : List Nat := [1, 1, 1, 1, 1, 2, 2, 2, 2, 2]

/-! ## `process_folder_and_save_results` as an effect trace

For the checkpoint-ordering and frame claims, the observable effects of
one call to `process_folder_and_save_results` (v32 lines 198-202) are:
decoding the folder's files (`process_folder`), the durable write of the
partial result file (`save_partial_results` returning), and the checkpoint
update (`mark_folder_as_processed`). Workers run these programs
concurrently; a crash stops the run after any reachable interleaving
point.
-/

inductive Action where
  | processFolder (f : String)
  | savePartial (f : String)
  | markProcessed (f : String)

/-- Persistent / observable pipeline state: which folders were decoded in
this run, which folders have a durable partial result file, and which
identifiers the persisted checkpoint set holds. -/
structure PipeState where
  decodedFolders : List String
  partials : List String
  checkpoint : List String

def applyAction (s : PipeState) : Action → PipeState
  | .processFolder f => { s with decodedFolders := f :: s.decodedFolders }
  | .savePartial f => { s with partials := f :: s.partials }
  | .markProcessed f => { s with checkpoint := f :: s.checkpoint }

def execTrace (s : PipeState) (t : List Action) : PipeState :=
  t.foldl applyAction s

/-- Embedding of `process_folder_and_save_results` (v32 lines 198-202) as
the trace of its effects: nothing at all when the folder is in the
checkpoint set loaded at run start; otherwise decode, then save the
partial file, then mark the folder processed — in that order. -/
def process_folder_and_save_results (folder : String) (processed : List String) :
    List Action :=
  if folder ∈ processed then []
  else [.processFolder folder, .savePartial folder, .markProcessed folder]

/-- A run configuration: the pipeline state plus each live worker's
remaining actions. -/
structure RunCfg where
  st : PipeState
  workers : List (List Action)

/-- One interleaving step: some worker executes its next action. -/
inductive RunStep : RunCfg → RunCfg → Prop where
  | exec (st : PipeState) (pre post : List (List Action)) (a : Action)
      (rest : List Action) :
      RunStep ⟨st, pre ++ (a :: rest) :: post⟩
        ⟨applyAction st a, pre ++ rest :: post⟩

/-- Reachability by any interleaving, stopped at any point (a crash is a
stop at a reachable configuration). -/
def RunReach : RunCfg → RunCfg → Prop :=
  Relation.ReflTransGen RunStep

/-- The initial configuration of a run: one worker per discovered folder,
each holding the effect trace of `process_folder_and_save_results`. -/
def initRunCfg (s : PipeState) (processed : List String) (folders : List String) :
    RunCfg :=
  ⟨s, folders.map (fun f => process_folder_and_save_results f processed)⟩

/-- Every `markProcessed f` in a worker's remaining actions is preceded
(within those actions) by `savePartial f`, or `f` already has a durable
partial file. Stated as a recursive weakest-precondition over the partials
list `ps`. -/
def marksJustified (ps : List String) : List Action → Prop
  | [] => True
  | .processFolder _ :: rest => marksJustified ps rest
  | .savePartial f :: rest => marksJustified (f :: ps) rest
  | .markProcessed f :: rest => f ∈ ps ∧ marksJustified ps rest

/-- The crash-safety invariant: every checkpointed folder has a durable
partial file, and every worker's remaining actions keep it that way. -/
def PipeInv (cfg : RunCfg) : Prop :=
  (∀ f ∈ cfg.st.checkpoint, f ∈ cfg.st.partials) ∧
    ∀ w ∈ cfg.workers, marksJustified cfg.st.partials w

/-! ## Concrete instances used by witnesses and counterexamples -/

/-- A decoder whose decode always raises (a corrupt file). -/
def errDecode : String → DecodeResult := fun _ => .raised "Invalid DICOM file"

/-- A decoder failing on one specific file and succeeding elsewhere with a
single tag. -/
def exampleDecode : String → DecodeResult := fun p =>
  if p = "/data/bad.dcm" then .raised "Invalid DICOM file"
  else .ok [("Modality (0008, 0060)", .vstr "MR")]

/-- Fresh pipeline state: nothing decoded, no partial files, empty
checkpoint. -/
def demoState : PipeState :=
  { decodedFolders := [], partials := [], checkpoint := [] }

/-- The configuration after one worker fully processed folder `"F"`
(decoded it, saved the partial file, marked it processed). -/
def demoCfgDone : RunCfg :=
  ⟨applyAction
      (applyAction (applyAction demoState (.processFolder "F")) (.savePartial "F"))
      (.markProcessed "F"),
    [[]]⟩

/-- A small two-record table with heterogeneous fields: `"B"` carries only
a sentinel, `"C"` only appears in the second record. -/
def demoRows : List Record :=
  [[("A", "1"), ("B", "N/A")], [("A", "None"), ("C", "x")]]

/-- A temp directory holding one partial file with the demo records. -/
def demoFS : FS :=
  { partialFiles := [demoRows]
    tempDirExists := true
    checkpointFileExists := true
    output := none }

/-! # Helper lemmas -/

theorem chunksOf6_flatten {α : Type} (xs : List α) : (chunksOf6 xs).flatten = xs := by
  induction xs using chunksOf6.induct with
  | case1 => simp [chunksOf6]
  | case2 x xs ih =>
      rw [chunksOf6, List.flatten_cons, ih]
      exact List.take_append_drop 6 (x :: xs)

theorem mem_foldl_addCol (l acc : List String) (c : String) :
    c ∈ l.foldl addCol acc ↔ c ∈ acc ∨ c ∈ l := by
  induction l generalizing acc with
  | nil => simp
  | cons x xs ih =>
      have haddCol : ∀ d : List String, c ∈ addCol d x ↔ c ∈ d ∨ c = x := by
        intro d
        unfold addCol
        by_cases hx : x ∈ d
        · simp only [if_pos hx]
          constructor
          · exact Or.inl
          · rintro (h | rfl)
            · exact h
            · exact hx
        · simp [if_neg hx]
      rw [List.foldl_cons, ih, haddCol]
      simp only [List.mem_cons]
      tauto

theorem mem_columnsOf (rows : List Record) (c : String) :
    c ∈ columnsOf rows ↔ ∃ r ∈ rows, ∃ v, (c, v) ∈ r := by
  unfold columnsOf
  rw [mem_foldl_addCol]
  simp only [List.not_mem_nil, false_or, List.mem_flatten, List.mem_map]
  constructor
  · rintro ⟨l, ⟨r, hr, rfl⟩, hc⟩
    rcases List.mem_map.mp hc with ⟨⟨k, v⟩, hkv, rfl⟩
    exact ⟨r, hr, v, hkv⟩
  · rintro ⟨r, hr, v, hv⟩
    exact ⟨r.map Prod.fst, ⟨r, hr, rfl⟩, List.mem_map.mpr ⟨(c, v), hv, rfl⟩⟩

theorem mem_keptColumns (rows : List Record) (c : String) :
    c ∈ keptColumns rows ↔
      c ∈ columnsOf rows ∧ ∃ r ∈ rows, ¬ normCell r c = none := by
  unfold keptColumns nullCount
  rw [List.mem_filter]
  simp only [decide_eq_true_eq, and_congr_right_iff]
  intro
  rw [not_iff_comm, not_exists, List.countP_eq_length]
  simp

theorem find?_overwrite (d : Record) (k v : String)
    (h : d.any (fun p => p.1 = k) = true) :
    (d.map (fun p => if p.1 = k then (k, v) else p)).find? (fun p => p.1 = k) =
      some (k, v) := by
  induction d with
  | nil => simp at h
  | cons a d ih =>
      by_cases ha : a.1 = k
      · simp [ha]
      · have h' : d.any (fun p => p.1 = k) = true := by
          simpa [List.any_cons, ha] using h
        simpa [ha] using ih h'

theorem find?_append_new (d : Record) (k v : String)
    (h : d.any (fun p => p.1 = k) = false) :
    (d ++ [(k, v)]).find? (fun p => p.1 = k) = some (k, v) := by
  induction d with
  | nil => simp
  | cons a d ih =>
      have ha : ¬ a.1 = k := by
        intro hk
        simp [List.any_cons, hk] at h
      have h' : d.any (fun p => p.1 = k) = false := by
        simpa [List.any_cons, ha] using h
      simpa [ha] using ih h'

theorem dictGet_dictAssign (d : Record) (k v : String) :
    dictGet (dictAssign d k v) k = some v := by
  unfold dictGet dictAssign
  by_cases h : d.any (fun p => p.1 = k)
  · rw [if_pos h, find?_overwrite d k v h]
    rfl
  · rw [if_neg h, find?_append_new d k v (by rwa [Bool.not_eq_true] at h)]
    rfl

theorem process_file_path (decode : String → DecodeResult) (p : String) :
    dictGet (process_file decode p) "DicomPath" = some p := by
  unfold process_file
  cases decode p with
  | ok tags => exact dictGet_dictAssign _ _ _
  | raised m => simp [dictGet]

theorem dcm_path_not_sentinel (p : String) (h : pyEndsWith p ".dcm" = true) :
    replace_with_none (some p) = some p := by
  unfold replace_with_none
  rw [if_neg]
  rintro (hc | hc | hc | hc | hc) <;>
    first
    | exact Option.noConfusion hc
    | (rw [Option.some_inj] at hc; subst hc; revert h; decide)

/-! # Claim theorems -/

/-- C3: `stringify_value` is total (it returns a `String` for every
`PyValue`, never a raised exception) and follows the priority order:
`None` maps to `"N/A"`; bytes map to their hexadecimal text; composite
list/set/dict values map to their `json.dumps` serialization when it
succeeds; a raised serialization error yields a string beginning with
`"Error: "`; every other value maps to its default `str()` form. -/
theorem stringify_value_spec (v : PyValue) :
    (v = .vnone → stringify_value v = "N/A") ∧
    (∀ bs, v = .vbytes bs → stringify_value v = bytesHex bs) ∧
    (∀ s, isComposite v = true → jsonDumps v = .ok s → stringify_value v = s) ∧
    (∀ e, isComposite v = true → jsonDumps v = .error e →
      stringify_value v = "Error: " ++ e) ∧
    (v ≠ .vnone → (∀ bs, v ≠ .vbytes bs) → isComposite v = false →
      stringify_value v = pyStr v) := by
  refine ⟨?_, ?_, ?_, ?_, ?_⟩
  · rintro rfl; rfl
  · rintro bs rfl; rfl
  · intro s hc hj
    cases v <;> simp_all [isComposite, stringify_value]
  · intro e hc hj
    cases v <;> simp_all [isComposite, stringify_value]
  · intro h1 h2 h3
    cases v <;> first
      | rfl
      | exact absurd rfl h1
      | exact absurd rfl (h2 _)
      | simp [isComposite] at h3

/-- Witness for C3 at concrete inputs: a set raises inside `json.dumps`
and is caught into an `"Error: "` string; `None` maps to `"N/A"`. -/
theorem stringify_value_spec_witness :
    stringify_value (.vset []) =
      "Error: Object of type set is not JSON serializable" ∧
    stringify_value .vnone = "N/A" :=
  ⟨(stringify_value_spec (.vset [])).2.2.2.1
      "Object of type set is not JSON serializable" rfl rfl,
    (stringify_value_spec .vnone).1 rfl⟩

/-- C4: the merge stage's per-cell normalization `replace_with_none` maps
a cell to the canonical missing value `none` if and only if the cell is
`""`, `"N/A"`, `"None"`, `"NONE"`, or literally absent; every other value
is returned unchanged; and the table's normalized cell is
`replace_with_none` of the raw cell, independently per cell. -/
theorem replace_with_none_spec (v : Option String) :
    (replace_with_none v = none ↔
      v = some "" ∨ v = some "N/A" ∨ v = some "None" ∨ v = some "NONE" ∨
        v = none) ∧
    (¬(v = some "" ∨ v = some "N/A" ∨ v = some "None" ∨ v = some "NONE" ∨
        v = none) → replace_with_none v = v) ∧
    (∀ (r : Record) (c : String), normCell r c = replace_with_none (getCell r c)) := by
  refine ⟨?_, ?_, fun r c => rfl⟩
  · unfold replace_with_none
    by_cases h : v = some "" ∨ v = some "N/A" ∨ v = some "None" ∨
        v = some "NONE" ∨ v = none
    · rw [if_pos h]
      exact ⟨fun _ => h, fun _ => rfl⟩
    · rw [if_neg h]
      constructor
      · intro hv; exact absurd (Or.inr (Or.inr (Or.inr (Or.inr hv)))) h
      · intro hv; exact absurd hv h
  · intro h
    unfold replace_with_none
    exact if_neg h

/-- Witness for C4 at concrete cells: the sentinel `"N/A"` normalizes to
missing, an ordinary value is unchanged. -/
theorem replace_with_none_spec_witness :
    replace_with_none (some "N/A") = none ∧
    replace_with_none (some "MR") = some "MR" :=
  ⟨(replace_with_none_spec (some "N/A")).1.mpr (Or.inr (Or.inl rfl)),
    (replace_with_none_spec (some "MR")).2.1 (by simp)⟩

/-- C5: after concatenation and normalization, a column survives the merge
stage if and only if it is a field of some record (the column set is the
union of field names) and at least one row's normalized cell is
non-missing — equivalently, a column is dropped iff it is missing in every
row; and on a non-empty temp directory the merge stage writes exactly the
surviving columns. -/
theorem merge_column_drop_spec (rows : List Record) (c : String) :
    (c ∈ keptColumns rows ↔
      (∃ r ∈ rows, ∃ v, (c, v) ∈ r) ∧ ∃ r ∈ rows, ¬ normCell r c = none) ∧
    (∀ fs : FS, ¬ fs.partialFiles.isEmpty = true →
      (merge_partial_results_and_cleanup fs).output =
        some (keptColumns fs.partialFiles.flatten, fs.partialFiles.flatten)) := by
  constructor
  · rw [mem_keptColumns, mem_columnsOf]
  · intro fs h
    unfold merge_partial_results_and_cleanup
    rw [if_neg h]

/-- Witness for C5 on the demo table: column `"C"` (populated in one row)
survives, and the merge of the demo temp directory writes the surviving
column set. -/
theorem merge_column_drop_spec_witness :
    ("C" ∈ keptColumns demoRows ↔
      (∃ r ∈ demoRows, ∃ v, ("C", v) ∈ r) ∧
        ∃ r ∈ demoRows, ¬ normCell r "C" = none) ∧
    (merge_partial_results_and_cleanup demoFS).output =
      some (keptColumns demoFS.partialFiles.flatten, demoFS.partialFiles.flatten) :=
  ⟨(merge_column_drop_spec demoRows "C").1,
    (merge_column_drop_spec demoRows "C").2 demoFS (by decide)⟩

/-- C6 counterexample: a checkpoint file whose content is valid JSON but
not iterable — the JSON number `42` — cannot be parsed as the serialized
set, yet `load_processed_folders` does not return the empty set: `set(42)`
raises `TypeError`, which no handler catches. -/
theorem load_processed_folders_counterexample :
    load_processed_folders (.parsed (.jnum 42)) =
      .error (.typeErr "int object is not iterable") := rfl

/-- C6 amended: `load_processed_folders` returns the empty set when the
checkpoint file is missing, and when its content fails JSON parsing
(corrupt or empty text); on a parsed JSON list of strings it returns
exactly the set of serialized identifiers; but content that parses to a
non-iterable JSON value propagates a `TypeError` instead of returning. -/
theorem load_processed_folders_amended :
    load_processed_folders .missing = .ok [] ∧
    load_processed_folders .unparsable = .ok [] ∧
    (∀ ss : List String,
      load_processed_folders (.parsed (.jlist (ss.map .jstr))) =
        .ok (dedupByFirst jsonScalarEq (ss.map .jstr))) ∧
    (∀ (ss : List String) (s : String),
      PyJson.jstr s ∈ dedupByFirst jsonScalarEq (ss.map .jstr) ↔ s ∈ ss) := by
  refine ⟨rfl, rfl, ?_, ?_⟩
  · intro ss
    have hall : (ss.map PyJson.jstr).all isHashable = true := by
      induction ss with
      | nil => rfl
      | cons a tl ih => simp [isHashable, ih]
    simp [load_processed_folders, pySet, hall]
  · intro ss s
    induction ss with
    | nil => simp [dedupByFirst]
    | cons a tl ih =>
        by_cases hs : s = a
        · subst hs
          simp [dedupByFirst]
        · simp only [List.map_cons, dedupByFirst, List.mem_cons, List.mem_filter]
          constructor
          · rintro (h | ⟨h, _⟩)
            · exact absurd (PyJson.jstr.inj h) hs
            · exact Or.inr (ih.mp h)
          · rintro (h | h)
            · exact absurd h hs
            · refine Or.inr ⟨ih.mpr h, ?_⟩
              simp only [jsonScalarEq, decide_eq_true_eq]
              exact fun h' => hs (Eq.symm h')

/-- C7 (code-level evaluation of the failing input): for a run over an
input tree with no decodable files, the merge stage itself behaves as the
claim says — it writes no output and deletes the temp directory — but the
tail of `main` then calls `os.remove` on `processed_folders.json`, which
was never created, so the run terminates with an uncaught
`FileNotFoundError` instead of completing. -/
theorem empty_input_cleanup_raises :
    merge_partial_results_and_cleanup emptyRunFS =
      { partialFiles := [], tempDirExists := false,
        checkpointFileExists := false, output := none } ∧
    mainFinish emptyRunFS = .error .fileNotFound :=
  ⟨rfl, rfl⟩

/-- C9: a folder already in the checkpoint set loaded at run start
contributes no effects at all: `process_folder_and_save_results` takes the
early exit, so its effect trace is empty — no decode, no partial file
write, no checkpoint update — and the pipeline state is left exactly as it
was. -/
theorem processed_folder_no_effects (folder : String) (processed : List String)
    (s : PipeState) (h : folder ∈ processed) :
    process_folder_and_save_results folder processed = [] ∧
    execTrace s (process_folder_and_save_results folder processed) = s := by
  have hp : process_folder_and_save_results folder processed = [] := by
    simp [process_folder_and_save_results, h]
  exact ⟨hp, by rw [hp]; rfl⟩

/-- Witness for C9: folder `"F"` is already checkpointed; nothing
happens. -/
theorem processed_folder_no_effects_witness :
    process_folder_and_save_results "F" ["F"] = [] ∧
    execTrace demoState (process_folder_and_save_results "F" ["F"]) = demoState :=
  processed_folder_no_effects "F" ["F"] demoState (by simp)

/-- C2 counterexample: on a file whose decode raises, the degraded record
returned by `process_file` holds exactly one entry — the source path — and
no error-marker field at all (the error is only printed, not stored in the
record). -/
theorem degraded_record_no_error_marker :
    process_file errDecode "/data/a.dcm" = [("DicomPath", "/data/a.dcm")] ∧
    (process_file errDecode "/data/a.dcm").length = 1 :=
  ⟨rfl, rfl⟩

/-- C2 amended: a raised per-file error never aborts the folder:
`process_file` returns the degraded record holding only the source path
(no error marker), and for any completion order of the chunk pool,
`process_folder` returns a permutation of the per-file records — one
record per `.dcm` file, with every failing file contributing its degraded
record, so at least `k` of the `n` records are degraded when `k` files
fail. -/
theorem per_file_isolation (decode : String → DecodeResult) (folder : String)
    (listing : List String) (order : List (List String))
    (horder : order.Perm (chunksOf6 (dcmFilepaths folder listing))) :
    (process_folder decode order).Perm
      ((dcmFilepaths folder listing).map (process_file decode)) ∧
    (process_folder decode order).length = (dcmFilepaths folder listing).length ∧
    (∀ p, decodeRaises decode p = true →
      process_file decode p = [("DicomPath", p)]) ∧
    (dcmFilepaths folder listing).countP (decodeRaises decode) ≤
      (process_folder decode order).countP isDegraded := by
  have hdeg : ∀ p, decodeRaises decode p = true →
      process_file decode p = [("DicomPath", p)] := by
    intro p hp
    cases hd : decode p with
    | ok tags => simp [decodeRaises, hd] at hp
    | raised m => simp [process_file, hd]
  have hrw : (chunksOf6 (dcmFilepaths folder listing)).flatMap
      (process_files_chunk decode) =
      (dcmFilepaths folder listing).map (process_file decode) := by
    unfold process_files_chunk
    rw [List.flatMap_def, ← List.map_flatten, chunksOf6_flatten]
  have hperm : (process_folder decode order).Perm
      ((dcmFilepaths folder listing).map (process_file decode)) := by
    unfold process_folder
    rw [← List.flatMap_def]
    exact hrw ▸ horder.flatMap_right (process_files_chunk decode)
  refine ⟨hperm, ?_, hdeg, ?_⟩
  · rw [hperm.length_eq, List.length_map]
  · rw [hperm.countP_eq isDegraded, List.countP_map]
    refine List.countP_mono_left ?_
    intro p _ hp
    have := hdeg p hp
    simp only [Function.comp, this]
    rfl

/-- Witness for C2's amended theorem: a two-file folder with one failing
file yields two records; the failing file's record is the degraded
path-only record. -/
theorem per_file_isolation_witness :
    (process_folder exampleDecode
        (chunksOf6 (dcmFilepaths "/data" ["good.dcm", "bad.dcm"]))).length = 2 ∧
    process_file exampleDecode "/data/bad.dcm" = [("DicomPath", "/data/bad.dcm")] := by
  have h := per_file_isolation exampleDecode "/data" ["good.dcm", "bad.dcm"]
      (chunksOf6 (dcmFilepaths "/data" ["good.dcm", "bad.dcm"])) (List.Perm.refl _)
  exact ⟨h.2.1.trans (by rfl), h.2.2.1 "/data/bad.dcm" (by decide)⟩

/-- The pair found by a successful `dictGet` is an entry of the record. -/
theorem dictGet_mem (d : Record) (k v : String) (h : dictGet d k = some v) :
    (k, v) ∈ d := by
  unfold dictGet at h
  cases hf : d.find? (fun p => p.1 = k) with
  | none => rw [hf] at h; exact Option.noConfusion h
  | some pr =>
      rw [hf] at h
      rcases pr with ⟨k', v'⟩
      have hm := List.mem_of_find?_eq_some hf
      have hk : k' = k := by simpa using List.find?_some hf
      have hv : v' = v := by simpa using h
      rw [← hk, ← hv]
      exact hm

/-- C10: every record `process_file` returns — in the success branch and
in the failure branch alike — maps `"DicomPath"` to exactly the input
path; consequently, for a non-empty table whose rows come from `.dcm`
files, every row's normalized `"DicomPath"` cell is the (non-missing)
source path, so the `"DicomPath"` column is never dropped by the merge
stage. -/
theorem dicomPath_column_retained (decode : String → DecodeResult)
    (paths : List String) (p0 : String) (h0 : p0 ∈ paths)
    (hdcm : ∀ p ∈ paths, pyEndsWith p ".dcm" = true) :
    (∀ p, dictGet (process_file decode p) "DicomPath" = some p) ∧
    (∀ p ∈ paths, normCell (process_file decode p) "DicomPath" = some p) ∧
    "DicomPath" ∈ keptColumns (paths.map (process_file decode)) := by
  have hget : ∀ p, dictGet (process_file decode p) "DicomPath" = some p :=
    fun p => process_file_path decode p
  have hnorm : ∀ p ∈ paths, normCell (process_file decode p) "DicomPath" = some p := by
    intro p hp
    unfold normCell getCell
    rw [hget p]
    exact dcm_path_not_sentinel p (hdcm p hp)
  refine ⟨hget, hnorm, ?_⟩
  rw [mem_keptColumns, mem_columnsOf]
  constructor
  · exact ⟨process_file decode p0, List.mem_map.mpr ⟨p0, h0, rfl⟩, p0,
      dictGet_mem _ _ _ (hget p0)⟩
  · refine ⟨process_file decode p0, List.mem_map.mpr ⟨p0, h0, rfl⟩, ?_⟩
    rw [hnorm p0 h0]
    exact Option.noConfusion

/-- Witness for C10 on a one-file folder whose decode fails: even the
degraded record keeps the path, and the `"DicomPath"` column survives the
merge. -/
theorem dicomPath_column_retained_witness :
    dictGet (process_file errDecode "/data/a.dcm") "DicomPath" =
      some "/data/a.dcm" ∧
    "DicomPath" ∈ keptColumns (["/data/a.dcm"].map (process_file errDecode)) := by
  have h := dicomPath_column_retained errDecode ["/data/a.dcm"] "/data/a.dcm"
      (by simp) (by decide)
  exact ⟨h.1 "/data/a.dcm", h.2.2⟩

/-- C8 counterexample: both `mark_folder_as_processed` calls run to
completion (both workers reach their final program counter), yet the final
checkpoint file holds only `"B"` — worker 1's identifier `"A"` is lost,
because each call's load ran under its own shared lock before the other's
exclusive-locked write, and the exclusive lock is only acquired after the
file is already truncated by `open(..., "w")`. Every lock acquisition in
this schedule succeeds without blocking, so the locking as coded does not
prevent the interleaving. -/
theorem markDone_lost_update :
    (runSchedule (twoMarkCfg "A" "B") racySched).file =
      .parsed (.jlist [.jstr "B"]) ∧
    (runSchedule (twoMarkCfg "A" "B") racySched).workers =
      [⟨1, "A", ["A"], 5⟩, ⟨2, "B", ["B"], 5⟩] :=
  ⟨rfl, rfl⟩

/-- C8 amended: `mark_folder_as_processed` does not hold the exclusive
lock for the read-modify-write span — the load runs under a separate
shared lock and the file is truncated before the exclusive lock is taken —
so concurrent calls can lose an identifier (see the counterexample);
when the two calls are fully serialized, each identifier is preserved:
the checkpoint file ends holding both folders and the lock is released. -/
theorem runSchedule_append (cfg : MarkCfg) (s1 s2 : List Nat) :
    runSchedule cfg (s1 ++ s2) = runSchedule (runSchedule cfg s1) s2 := by
  unfold runSchedule
  exact List.foldl_append execStep cfg s1 s2

theorem runSchedule_cons (cfg : MarkCfg) (p : Nat) (s : List Nat) :
    runSchedule cfg (p :: s) = runSchedule (execStep cfg p) s := rfl

theorem markDone_serialized (a b : String) (h : a ≠ b) :
    (runSchedule (twoMarkCfg a b) serialSched).file =
      .parsed (.jlist [.jstr a, .jstr b]) ∧
    (runSchedule (twoMarkCfg a b) serialSched).exLock = none := by
  have hnb : ¬ b ∈ [a] := by
    simp only [List.mem_singleton]
    exact fun hh => h (Eq.symm hh)
  have hb : setAdd [a] b = [a, b] := by
    unfold setAdd
    rw [if_neg hnb]
    rfl
  have h5 : runSchedule (twoMarkCfg a b) [1, 1, 1, 1, 1] =
      { file := .parsed (.jlist [.jstr a]), exLock := none,
        workers := [⟨1, a, [a], 5⟩, mkWorker 2 b] } := rfl
  have h6 : execStep
      { file := .parsed (.jlist [.jstr a]), exLock := none,
        workers := [⟨1, a, [a], 5⟩, mkWorker 2 b] } 2 =
      { file := .parsed (.jlist [.jstr a]), exLock := none,
        workers := [⟨1, a, [a], 5⟩, ⟨2, b, setAdd [a] b, 1⟩] } := rfl
  rw [hb] at h6
  have h10 : runSchedule
      { file := .parsed (.jlist [.jstr a]), exLock := none,
        workers := [⟨1, a, [a], 5⟩, ⟨2, b, [a, b], 1⟩] } [2, 2, 2, 2] =
      { file := .parsed (.jlist [.jstr a, .jstr b]), exLock := none,
        workers := [⟨1, a, [a], 5⟩, ⟨2, b, [a, b], 5⟩] } := rfl
  have hsched : serialSched = [1, 1, 1, 1, 1] ++ (2 :: [2, 2, 2, 2]) := rfl
  rw [hsched, runSchedule_append, runSchedule_cons, h5, h6, h10]
  exact ⟨rfl, rfl⟩

/-- Witness for C8's amended theorem at folders `"A"`, `"B"`. -/
theorem markDone_serialized_witness :
    (runSchedule (twoMarkCfg "A" "B") serialSched).file =
      .parsed (.jlist [.jstr "A", .jstr "B"]) ∧
    (runSchedule (twoMarkCfg "A" "B") serialSched).exLock = none :=
  markDone_serialized "A" "B" (by decide)

/-- Monotonicity of `marksJustified` in the set of durable partial
files. -/
theorem marksJustified_mono (ps ps' : List String)
    (hsub : ∀ x ∈ ps, x ∈ ps') (t : List Action)
    (ht : marksJustified ps t) : marksJustified ps' t := by
  induction t generalizing ps ps' with
  | nil => trivial
  | cons a rest ih =>
      cases a with
      | processFolder f => exact ih ps ps' hsub ht
      | savePartial f =>
          refine ih (f :: ps) (f :: ps') ?_ ht
          intro x hx
          rcases List.mem_cons.mp hx with hx | hx
          · exact hx ▸ List.mem_cons_self f ps'
          · exact List.mem_cons_of_mem f (hsub x hx)
      | markProcessed f => exact ⟨hsub f ht.1, ih ps ps' hsub ht.2⟩

/-- One interleaving step preserves the crash-safety invariant. -/
theorem runStep_preserves (c c' : RunCfg) (hs : RunStep c c') (hi : PipeInv c) :
    PipeInv c' := by
  rcases hs with ⟨st, pre, post, a, rest⟩
  obtain ⟨hcp, hw⟩ := hi
  have hmem : (a :: rest) ∈ pre ++ (a :: rest) :: post := by
    simp [List.mem_append]
  have hhead := hw (a :: rest) hmem
  have hother : ∀ w, w ∈ pre ∨ w ∈ post → marksJustified st.partials w := by
    intro w hw2
    refine hw w ?_
    rcases hw2 with hw2 | hw2
    · exact List.mem_append.mpr (Or.inl hw2)
    · exact List.mem_append.mpr (Or.inr (List.mem_cons_of_mem _ hw2))
  cases a with
  | processFolder f =>
      refine ⟨hcp, ?_⟩
      intro w hwm
      rcases List.mem_append.mp hwm with hwm | hwm
      · exact hother w (Or.inl hwm)
      · rcases List.mem_cons.mp hwm with rfl | hwm
        · exact hhead
        · exact hother w (Or.inr hwm)
  | savePartial f =>
      constructor
      · intro g hg
        exact List.mem_cons_of_mem f (hcp g hg)
      · intro w hwm
        rcases List.mem_append.mp hwm with hwm | hwm
        · exact marksJustified_mono st.partials (f :: st.partials)
            (fun x hx => List.mem_cons_of_mem f hx) w (hother w (Or.inl hwm))
        · rcases List.mem_cons.mp hwm with rfl | hwm
          · exact hhead
          · exact marksJustified_mono st.partials (f :: st.partials)
              (fun x hx => List.mem_cons_of_mem f hx) w (hother w (Or.inr hwm))
  | markProcessed f =>
      constructor
      · intro g hg
        rcases List.mem_cons.mp hg with rfl | hg
        · exact hhead.1
        · exact hcp g hg
      · intro w hwm
        rcases List.mem_append.mp hwm with hwm | hwm
        · exact hother w (Or.inl hwm)
        · rcases List.mem_cons.mp hwm with rfl | hwm
          · exact hhead.2
          · exact hother w (Or.inr hwm)

/-- The invariant holds along every reachable configuration. -/
theorem runReach_preserves (c c' : RunCfg) (hr : RunReach c c')
    (hi : PipeInv c) : PipeInv c' := by
  induction hr with
  | refl => exact hi
  | tail _ hstep ih => exact runStep_preserves _ _ hstep ih

/-- The initial configuration of a run satisfies the invariant whenever
the starting filesystem does. -/
theorem initRunCfg_inv (s : PipeState) (processed folders : List String)
    (hinit : ∀ f ∈ s.checkpoint, f ∈ s.partials) :
    PipeInv (initRunCfg s processed folders) := by
  refine ⟨hinit, ?_⟩
  intro w hwm
  rcases List.mem_map.mp hwm with ⟨f, _, rfl⟩
  unfold process_folder_and_save_results
  by_cases hp : f ∈ processed
  · rw [if_pos hp]
    trivial
  · rw [if_neg hp]
    exact ⟨List.mem_cons_self f s.partials, trivial⟩

/-- C1: in `process_folder_and_save_results`, a folder not yet in the
checkpoint set emits its effects in the order decode, then partial-file
write, then checkpoint mark — the partial result file is durable strictly
before the identifier is persisted; consequently, in every configuration
reachable by any interleaving of workers (including a crash at any point),
a folder identifier present in the checkpoint set implies its partial
result file has been written — a crash between the two writes at worst
leaves an unmarked folder to be reprocessed. -/
theorem checkpoint_write_ordering (processed folders : List String)
    (s0 : PipeState) (hinit : ∀ f ∈ s0.checkpoint, f ∈ s0.partials)
    (cfg : RunCfg)
    (hreach : RunReach (initRunCfg s0 processed folders) cfg) :
    (∀ f, f ∉ processed →
      process_folder_and_save_results f processed =
        [.processFolder f, .savePartial f, .markProcessed f]) ∧
    ∀ f ∈ cfg.st.checkpoint, f ∈ cfg.st.partials := by
  constructor
  · intro f hf
    simp [process_folder_and_save_results, hf]
  · exact (runReach_preserves _ _ hreach
      (initRunCfg_inv s0 processed folders hinit)).1

/-- Witness for C1: a single worker processes folder `"F"` to completion
from a fresh state; the reached configuration has `"F"` checkpointed and,
by the theorem, its partial file durable. -/
theorem checkpoint_write_ordering_witness :
    process_folder_and_save_results "F" [] =
      [.processFolder "F", .savePartial "F", .markProcessed "F"] ∧
    "F" ∈ demoCfgDone.st.partials := by
  have s1 : RunStep (initRunCfg demoState [] ["F"])
      ⟨applyAction demoState (.processFolder "F"),
        [[.savePartial "F", .markProcessed "F"]]⟩ :=
    RunStep.exec demoState [] [] (.processFolder "F")
      [.savePartial "F", .markProcessed "F"]
  have s2 : RunStep
      ⟨applyAction demoState (.processFolder "F"),
        [[.savePartial "F", .markProcessed "F"]]⟩
      ⟨applyAction (applyAction demoState (.processFolder "F")) (.savePartial "F"),
        [[.markProcessed "F"]]⟩ :=
    RunStep.exec _ [] [] (.savePartial "F") [.markProcessed "F"]
  have s3 : RunStep
      ⟨applyAction (applyAction demoState (.processFolder "F")) (.savePartial "F"),
        [[.markProcessed "F"]]⟩
      demoCfgDone :=
    RunStep.exec _ [] [] (.markProcessed "F") []
  have hreach : RunReach (initRunCfg demoState [] ["F"]) demoCfgDone :=
    Relation.ReflTransGen.tail
      (Relation.ReflTransGen.tail (Relation.ReflTransGen.single s1) s2) s3
  have h := checkpoint_write_ordering [] ["F"] demoState
      (by intro f hf; simp [demoState] at hf) demoCfgDone hreach
  refine ⟨h.1 "F" (List.not_mem_nil "F"), h.2 "F" ?_⟩
  show "F" ∈ demoCfgDone.st.checkpoint
  simp [demoCfgDone, applyAction, demoState]

end DicomExtract
